import Mathlib

/-!
# The go-pg adapter of gue (`adapter/gopgv10/db.go`)

A shallow embedding of the adapter that lets the job queue talk to PostgreSQL
through `github.com/go-pg/pg/v10`: the SQL and argument translation
(`formatSQL`, `formatArgs`), the error normalisation of `aRow.Scan` and
`aTx.Rollback`, the command tag, and the pass-through operations of the
transaction, the connection and the pool.

Go strings are byte sequences, Go errors are values compared by identity and
inspected with `errors.Is`, and every call into go-pg is an explicit step on a
`World` that records the call.
-/

namespace Gopgv10

/-! ## Go strings and the `strings` functions used by `formatSQL` -/

/-- A Go string: an immutable sequence of bytes. -/
abbrev GoString := List UInt8

/-- The byte `$` (0x24). -/
def dollar : UInt8 := 36

/-- The byte `?` (0x3f). -/
def question : UInt8 := 63

/-- Go `strings.Index(s, substr)`: the index of the first instance of `substr`
in `s`, or `-1` when there is none. -/
def stringsIndex : GoString → GoString → Int
  | [], substr => if substr = [] then 0 else -1
  | c :: s, substr =>
    if substr.isPrefixOf (c :: s) then 0
    else
      let r := stringsIndex s substr
      if r < 0 then -1 else r + 1

/-- The loop of Go `strings.Count` for a non-empty `substr`:
`for { i := Index(s, substr); if i == -1 { return n }; n++; s = s[i+len(substr):] }`.
The first argument bounds the number of iterations. -/
def stringsCountLoop : Nat → GoString → GoString → Nat → Nat
  | 0, _, _, n => n
  | fuel + 1, s, substr, n =>
    let i := stringsIndex s substr
    if i = -1 then n
    else stringsCountLoop fuel (s.drop (i.toNat + substr.length)) substr (n + 1)

/-- Go `strings.Count(s, substr)` for a non-empty `substr`: the number of
non-overlapping instances of `substr` in `s`. Every iteration of the loop
consumes at least one byte of `s`, so `len(s) + 1` iterations are enough. -/
def stringsCount (s substr : GoString) : Nat :=
  stringsCountLoop (s.length + 1) s substr 0

/-- The replacement loop of Go `strings.Replace` for a non-empty `old`:
```
for i := 0; i < n; i++ {
    j := start + Index(s[start:], old)
    b.WriteString(s[start:j]); b.WriteString(new)
    start = j + len(old)
}
b.WriteString(s[start:])
```
The state is the builder `b` and the offset `start`. -/
def stringsReplaceLoop (s old new : GoString) : Nat → Nat → GoString → GoString
  | 0, start, b => b ++ s.drop start
  | n + 1, start, b =>
    let j := start + (stringsIndex (s.drop start) old).toNat
    stringsReplaceLoop s old new n (j + old.length)
      (b ++ (s.drop start).take (j - start) ++ new)

/-- Go `strings.Replace(s, old, new, n)`: a copy of `s` with the first `n`
non-overlapping instances of `old` replaced by `new`, all of them when `n < 0`.
The model covers a non-empty `old`; with an empty `old` Go inserts `new`
between the UTF-8 sequences of `s`, a case that no call in this package reaches
and that is left as the identity here. -/
def stringsReplace (s old new : GoString) (n : Int) : GoString :=
  if old = new ∨ n = 0 then s
  else if old = [] then s
  else
    let m := stringsCount s old
    if m = 0 then s
    else
      let k := if n < 0 ∨ (m : Int) < n then m else n.toNat
      stringsReplaceLoop s old new k 0 []

/-- Source `formatSQL`: go-pg uses `?` instead of `$`;
`strings.Replace(sql, "$", "?", -1)`. -/
def formatSQL (sql : GoString) : GoString :=
  stringsReplace sql [dollar] [question] (-1)

/-! ## Go values and `formatArgs` -/

/-- A Go value of type `any` as the adapter sees it: the nil interface, or some
concrete value. Pointers (scan destinations) are addresses. -/
inductive GoAny where
  | nil
  | int (v : Int)
  | str (s : GoString)
  | bool (b : Bool)
  | ptr (addr : Nat)
  deriving DecidableEq, Repr

/-- Go `make([]any, n)`: a slice of `n` zero values (nil interfaces). -/
def makeSlice (n : Nat) : List GoAny := List.replicate n GoAny.nil

/-- Go `copy(dst, src)`: overwrites the first `min(len(dst), len(src))`
elements of `dst` with those of `src`; the result is the new content of
`dst`. -/
def goCopy (dst src : List GoAny) : List GoAny :=
  src.take dst.length ++ dst.drop src.length

/-- Source `formatArgs`: go-pg starts at 0 instead of 1;
`dst := make([]any, len(args)+1); copy(dst[1:], args); return dst`. -/
def formatArgs (args : List GoAny) : List GoAny :=
  let dst := makeSlice (args.length + 1)
  dst.take 1 ++ goCopy (dst.drop 1) args

/-- The bytes of an ASCII text, for writing SQL in examples. -/
def ascii (s : String) : GoString := s.toList.map (fun c => UInt8.ofNat c.toNat)

/-- The byte-wise substitution that `formatSQL` is shown to compute. -/
def swapDollar (b : UInt8) : UInt8 := if b = dollar then question else b

/-- Decimal digits of `n`, most significant first, as ASCII bytes; the first
argument bounds the number of digits. -/
def decimalAux : Nat → Nat → GoString → GoString
  | 0, _, acc => acc
  | fuel + 1, n, acc =>
    let acc1 := UInt8.ofNat (48 + n % 10) :: acc
    if n / 10 = 0 then acc1 else decimalAux fuel (n / 10) acc1

/-- The decimal numeral of `n` as it is written in SQL text. -/
def decimal (n : Nat) : GoString := decimalAux (n + 1) n []

/-- The text of placeholder number `i` with the given marker byte: `$i` in the
canonical convention, `?i` in the go-pg convention. -/
def placeholder (marker : UInt8) (i : Nat) : GoString := marker :: decimal i

/-- The text `t` occurs in `s` at byte offset `p`. -/
def occursAt (t s : GoString) (p : Nat) : Prop := t <+: s.drop p

/-! ## Go errors -/

/-- Go error values as the adapter can tell them apart: the sentinels of go-pg
and of the adapter package, any other error value, and an error wrapping another
one (`Unwrap() error`, as built by `fmt.Errorf` with `%w`). -/
inductive GoError where
  | pgErrNoRows
  | pgErrMultiRows
  | pgErrTxDone
  | adapterErrNoRows
  | adapterErrTxClosed
  | other (id : Nat)
  | wrap (id : Nat) (inner : GoError)
  deriving DecidableEq, Repr

/-- The loop of Go `errors.Is`: compare, then unwrap, until the chain ends. -/
def GoError.isChain : GoError → GoError → Bool
  | GoError.wrap id inner, target =>
    decide (GoError.wrap id inner = target) || GoError.isChain inner target
  | e, target => decide (e = target)

/-- Go `errors.Is(err, target)` for a non-nil `target`; a nil `err` (`none`)
matches no target. -/
def errorsIs (err : Option GoError) (target : GoError) : Bool :=
  match err with
  | none => false
  | some e => e.isChain target

/-! ## The go-pg backend behind the adapter -/

/-- A `context.Context` handed in by the caller. -/
structure Ctx where
  id : Nat
  deriving DecidableEq, Repr

/-- A pointer to a go-pg object (`*pg.Tx`, `*pg.Conn`, `*pg.DB`); `none` is the
nil pointer. -/
abbrev Handle := Option Nat

/-- The go-pg objects the adapter executes statements on (the implementations
of `orm.DB` it holds). -/
inductive Executor where
  | tx (h : Handle)
  | conn (h : Handle)
  | db (h : Handle)
  deriving DecidableEq, Repr

/-- An `orm.Result` of go-pg: the counts returned by its methods, which are Go
`int`s. -/
structure OrmResult where
  rowsAffected : Int
  rowsReturned : Int
  deriving DecidableEq, Repr

/-- The calls the adapter makes into go-pg, with their arguments. -/
inductive BackendCall where
  | queryOneContext (ctx : Ctx) (db : Executor) (dest : List GoAny)
      (query : GoString) (params : List GoAny)
  | execContext (ctx : Ctx) (db : Executor) (query : GoString) (params : List GoAny)
  | rollbackContext (ctx : Ctx) (tx : Handle)
  | commitContext (ctx : Ctx) (tx : Handle)
  | ping (ctx : Ctx) (db : Executor)
  | beginContext (ctx : Ctx) (db : Executor)
  | close (db : Executor)
  | conn (db : Handle)
  deriving DecidableEq, Repr

/-- What a go-pg call hands back: the `orm.Result` (nil interface is `none`),
the object pointer for `BeginContext` and `Conn`, and the error (nil is
`none`). -/
structure Reply where
  res : Option OrmResult
  handle : Handle
  err : Option GoError
  deriving DecidableEq, Repr

/-- A go-pg backend with internal state `σ` (connections, transaction handles,
the server behind them): how it answers each call and how its state moves. -/
abbrev Backend (σ : Type) := BackendCall → σ → Reply × σ

/-- The world the adapter runs in: the backend state and the calls made into
the backend so far, oldest first. -/
structure World (σ : Type) where
  st : σ
  log : List BackendCall

/-- One call into go-pg: it is recorded and answered. -/
def invoke {σ : Type} (B : Backend σ) (c : BackendCall) (w : World σ) :
    Reply × World σ :=
  let r := B c w.st
  (r.1, { st := r.2, log := w.log ++ [c] })

/-! ## The adapter -/

/-- Source `aRow`: the deferred query behind `adapter.Row`. -/
structure aRow where
  ctx : Ctx
  db : Executor
  sql : GoString
  args : List GoAny
  deriving DecidableEq, Repr

/-- Source `aRow.Scan`:
`_, err := r.db.QueryOneContext(r.ctx, pg.Scan(dest...), formatSQL(r.sql), formatArgs(r.args)...)`,
then `adapter.ErrNoRows` if `errors.Is(err, pg.ErrNoRows)`, else `err`. -/
def aRow.Scan {σ : Type} (B : Backend σ) (r : aRow) (dest : List GoAny)
    (w : World σ) : Option GoError × World σ :=
  let out := invoke B
    (BackendCall.queryOneContext r.ctx r.db dest (formatSQL r.sql) (formatArgs r.args)) w
  if errorsIs out.1.err GoError.pgErrNoRows then
    (some GoError.adapterErrNoRows, out.2)
  else
    (out.1.err, out.2)

/-- Source `aCommandTag`: wraps the `orm.Result` handed back by go-pg, which is
an interface value and may be nil. -/
structure aCommandTag where
  r : Option OrmResult
  deriving DecidableEq, Repr

/-- A Go run-time panic. -/
inductive Panic where
  | nilDereference
  deriving DecidableEq, Repr

/-- Go conversion `int64(x)`: the value of `x` in 64-bit two's complement. -/
def toInt64 (x : Int) : Int := (x + 2 ^ 63) % 2 ^ 64 - 2 ^ 63

/-- Source `aCommandTag.RowsAffected`: `return int64(ct.r.RowsAffected())`.
Calling a method on a nil interface value panics. -/
def aCommandTag.RowsAffected (ct : aCommandTag) : Except Panic Int :=
  match ct.r with
  | none => Except.error Panic.nilDereference
  | some r => Except.ok (toInt64 r.rowsAffected)

/-- Source `aTx`: wraps a `*pg.Tx`. -/
structure aTx where
  tx : Handle
  deriving DecidableEq, Repr

/-- Source `NewTx`. -/
def NewTx (tx : Handle) : aTx := { tx := tx }

/-- Source `aTx.Exec`:
`r, err := tx.tx.ExecContext(ctx, formatSQL(sql), formatArgs(args)...); return aCommandTag{r}, err`. -/
def aTx.Exec {σ : Type} (B : Backend σ) (tx : aTx) (ctx : Ctx) (sql : GoString)
    (args : List GoAny) (w : World σ) : (aCommandTag × Option GoError) × World σ :=
  let out := invoke B
    (BackendCall.execContext ctx (Executor.tx tx.tx) (formatSQL sql) (formatArgs args)) w
  (({ r := out.1.res }, out.1.err), out.2)

/-- Source `aTx.QueryRow`: `return &aRow{ctx, tx.tx, sql, args}`. -/
def aTx.QueryRow {σ : Type} (tx : aTx) (ctx : Ctx) (sql : GoString)
    (args : List GoAny) (w : World σ) : aRow × World σ :=
  ({ ctx := ctx, db := Executor.tx tx.tx, sql := sql, args := args }, w)

/-- Source `aTx.Rollback`: `err := tx.tx.RollbackContext(ctx)`, then
`adapter.ErrTxClosed` if `errors.Is(err, pg.ErrTxDone)`, else `err`. -/
def aTx.Rollback {σ : Type} (B : Backend σ) (tx : aTx) (ctx : Ctx)
    (w : World σ) : Option GoError × World σ :=
  let out := invoke B (BackendCall.rollbackContext ctx tx.tx) w
  if errorsIs out.1.err GoError.pgErrTxDone then
    (some GoError.adapterErrTxClosed, out.2)
  else
    (out.1.err, out.2)

/-- Source `aTx.Commit`: `return tx.tx.CommitContext(ctx)`. -/
def aTx.Commit {σ : Type} (B : Backend σ) (tx : aTx) (ctx : Ctx)
    (w : World σ) : Option GoError × World σ :=
  let out := invoke B (BackendCall.commitContext ctx tx.tx) w
  (out.1.err, out.2)

/-- Source `conn`: wraps a `*pg.Conn`. -/
structure conn where
  c : Handle
  deriving DecidableEq, Repr

/-- Source `NewConn`. -/
def NewConn (c : Handle) : conn := { c := c }

/-- Source `conn.Ping`: `return c.c.Ping(ctx)`. -/
def conn.Ping {σ : Type} (B : Backend σ) (c : conn) (ctx : Ctx)
    (w : World σ) : Option GoError × World σ :=
  let out := invoke B (BackendCall.ping ctx (Executor.conn c.c)) w
  (out.1.err, out.2)

/-- Source `conn.Begin`: `tx, err := c.c.BeginContext(ctx); return NewTx(tx), err`. -/
def conn.Begin {σ : Type} (B : Backend σ) (c : conn) (ctx : Ctx)
    (w : World σ) : (aTx × Option GoError) × World σ :=
  let out := invoke B (BackendCall.beginContext ctx (Executor.conn c.c)) w
  ((NewTx out.1.handle, out.1.err), out.2)

/-- Source `conn.Exec`:
`r, err := c.c.ExecContext(ctx, formatSQL(sql), formatArgs(args)...); return aCommandTag{r}, err`. -/
def conn.Exec {σ : Type} (B : Backend σ) (c : conn) (ctx : Ctx) (sql : GoString)
    (args : List GoAny) (w : World σ) : (aCommandTag × Option GoError) × World σ :=
  let out := invoke B
    (BackendCall.execContext ctx (Executor.conn c.c) (formatSQL sql) (formatArgs args)) w
  (({ r := out.1.res }, out.1.err), out.2)

/-- Source `conn.QueryRow`: `return &aRow{ctx, c.c, sql, args}`. -/
def conn.QueryRow {σ : Type} (c : conn) (ctx : Ctx) (sql : GoString)
    (args : List GoAny) (w : World σ) : aRow × World σ :=
  ({ ctx := ctx, db := Executor.conn c.c, sql := sql, args := args }, w)

/-- Source `conn.Release`: `return c.c.Close()`. -/
def conn.Release {σ : Type} (B : Backend σ) (c : conn)
    (w : World σ) : Option GoError × World σ :=
  let out := invoke B (BackendCall.close (Executor.conn c.c)) w
  (out.1.err, out.2)

/-- Source `connPool`: wraps a `*pg.DB`. -/
structure connPool where
  db : Handle
  deriving DecidableEq, Repr

/-- Source `NewConnPool`. -/
def NewConnPool (db : Handle) : connPool := { db := db }

/-- Source `connPool.Ping`: `return c.db.Ping(ctx)`. -/
def connPool.Ping {σ : Type} (B : Backend σ) (c : connPool) (ctx : Ctx)
    (w : World σ) : Option GoError × World σ :=
  let out := invoke B (BackendCall.ping ctx (Executor.db c.db)) w
  (out.1.err, out.2)

/-- Source `connPool.Begin`: `tx, err := c.db.BeginContext(ctx); return NewTx(tx), err`. -/
def connPool.Begin {σ : Type} (B : Backend σ) (c : connPool) (ctx : Ctx)
    (w : World σ) : (aTx × Option GoError) × World σ :=
  let out := invoke B (BackendCall.beginContext ctx (Executor.db c.db)) w
  ((NewTx out.1.handle, out.1.err), out.2)

/-- Source `connPool.Exec`:
`r, err := c.db.ExecContext(ctx, formatSQL(sql), formatArgs(args)...); return aCommandTag{r}, err`. -/
def connPool.Exec {σ : Type} (B : Backend σ) (c : connPool) (ctx : Ctx)
    (sql : GoString) (args : List GoAny) (w : World σ) :
    (aCommandTag × Option GoError) × World σ :=
  let out := invoke B
    (BackendCall.execContext ctx (Executor.db c.db) (formatSQL sql) (formatArgs args)) w
  (({ r := out.1.res }, out.1.err), out.2)

/-- Source `connPool.QueryRow`: `return &aRow{ctx, c.db, sql, args}`. -/
def connPool.QueryRow {σ : Type} (c : connPool) (ctx : Ctx) (sql : GoString)
    (args : List GoAny) (w : World σ) : aRow × World σ :=
  ({ ctx := ctx, db := Executor.db c.db, sql := sql, args := args }, w)

/-- Source `connPool.Acquire`: `return NewConn(c.db.Conn()), nil`. -/
def connPool.Acquire {σ : Type} (B : Backend σ) (c : connPool) (_ctx : Ctx)
    (w : World σ) : (conn × Option GoError) × World σ :=
  let out := invoke B (BackendCall.conn c.db) w
  ((NewConn out.1.handle, none), out.2)

/-- Source `connPool.Close`: `return c.db.Close()`. -/
def connPool.Close {σ : Type} (B : Backend σ) (c : connPool)
    (w : World σ) : Option GoError × World σ :=
  let out := invoke B (BackendCall.close (Executor.db c.db)) w
  (out.1.err, out.2)

/-! ## A reference go-pg backend

go-pg documents `pg.ErrTxDone` as "returned by any operation that is performed
on a transaction that has already been committed or rolled back". In go-pg v10
that answer comes from the transaction's own sticky connection pool, which
`CommitContext` and `RollbackContext` close whatever the statement returned. A
transaction begun on a `*pg.DB` owns that pool. A transaction begun on a
`*pg.Conn` (the object behind `connPool.Acquire`) shares the pool of the
connection, which stays open when the transaction closes: later calls on such a
transaction reach the server and `pg.ErrTxDone` is not reported. -/

/-- The answer of go-pg on a finished transaction. -/
def txDoneReply : Reply := { res := none, handle := none, err := some GoError.pgErrTxDone }

/-- The state of the reference backend: the transactions begun on the pool
(`*pg.DB`), and the transactions on which `Commit` or `Rollback` has run. -/
structure PgState where
  poolTx : List Nat
  done : List Nat
  deriving DecidableEq, Repr

/-- The transaction `h` answers `pg.ErrTxDone`: it is finished and it owns its
connection pool. -/
def PgState.answersTxDone (st : PgState) (h : Nat) : Bool :=
  decide (h ∈ st.done) && decide (h ∈ st.poolTx)

/-- Records that `Commit` or `Rollback` has run on `h`. -/
def PgState.finish (st : PgState) (h : Nat) : PgState :=
  { poolTx := st.poolTx, done := h :: st.done }

/-- A go-pg backend; `server` answers the calls that reach the database. -/
def goPg (server : BackendCall → Reply) : Backend PgState
  | BackendCall.beginContext ctx (Executor.db d), st =>
    let r := server (BackendCall.beginContext ctx (Executor.db d))
    match r.err, r.handle with
    | none, some h =>
      (r, { poolTx := h :: st.poolTx, done := st.done.filter (fun x => decide (x ≠ h)) })
    | _, _ => (r, st)
  | BackendCall.beginContext ctx (Executor.conn d), st =>
    let r := server (BackendCall.beginContext ctx (Executor.conn d))
    match r.err, r.handle with
    | none, some h =>
      (r, { poolTx := st.poolTx.filter (fun x => decide (x ≠ h)),
            done := st.done.filter (fun x => decide (x ≠ h)) })
    | _, _ => (r, st)
  | BackendCall.commitContext ctx (some h), st =>
    if st.answersTxDone h then (txDoneReply, st)
    else (server (BackendCall.commitContext ctx (some h)), st.finish h)
  | BackendCall.rollbackContext ctx (some h), st =>
    if st.answersTxDone h then (txDoneReply, st)
    else (server (BackendCall.rollbackContext ctx (some h)), st.finish h)
  | BackendCall.execContext ctx (Executor.tx (some h)) q ps, st =>
    if st.answersTxDone h then (txDoneReply, st)
    else (server (BackendCall.execContext ctx (Executor.tx (some h)) q ps), st)
  | BackendCall.queryOneContext ctx (Executor.tx (some h)) d q ps, st =>
    if st.answersTxDone h then (txDoneReply, st)
    else (server (BackendCall.queryOneContext ctx (Executor.tx (some h)) d q ps), st)
  | c, st => (server c, st)

/-- A server on which every statement succeeds and affects one row. -/
def okServer : BackendCall → Reply :=
  fun _ => { res := some { rowsAffected := 1, rowsReturned := 0 }, handle := some 1, err := none }

/-- A world in which nothing has happened yet. -/
def freshWorld : World PgState := { st := { poolTx := [], done := [] }, log := [] }

/-- The context used in the scenarios. -/
def bg : Ctx := { id := 0 }

/-- Scenario: `connPool.Begin` on the fresh world. -/
def poolBegin : (aTx × Option GoError) × World PgState :=
  connPool.Begin (goPg okServer) (NewConnPool (some 1)) bg freshWorld

/-- Scenario: `connPool.Begin`, then `Commit` on the transaction. -/
def poolBeginCommit : Option GoError × World PgState :=
  aTx.Commit (goPg okServer) poolBegin.1.1 bg poolBegin.2

/-- Scenario: `connPool.Acquire` on the fresh world. -/
def poolAcquire : (conn × Option GoError) × World PgState :=
  connPool.Acquire (goPg okServer) (NewConnPool (some 1)) bg freshWorld

/-- Scenario: `connPool.Acquire`, then `Begin` on the connection. -/
def connBegin : (aTx × Option GoError) × World PgState :=
  conn.Begin (goPg okServer) poolAcquire.1.1 bg poolAcquire.2

/-- Scenario: `connPool.Acquire`, `Begin` on the connection, then `Commit` on
the transaction. -/
def connBeginCommit : Option GoError × World PgState :=
  aTx.Commit (goPg okServer) connBegin.1.1 bg connBegin.2

/-- The adapter forwards the backend's error: an error `e` that is neither (a
wrapping of) `pg.ErrNoRows` nor of `pg.ErrTxDone` comes back as `e` itself, and
the adapter reports no error only when the backend reported none. -/
def Forwards (backendErr adapterErr : Option GoError) : Prop :=
  (∀ e : GoError, backendErr = some e →
      errorsIs (some e) GoError.pgErrNoRows = false →
      errorsIs (some e) GoError.pgErrTxDone = false → adapterErr = some e) ∧
  (adapterErr = none → backendErr = none)

/-- A backend on which every call fails with the same error and hands back no
result object. -/
def failingBackend (e : GoError) : Backend Unit :=
  fun _ st => ({ res := none, handle := none, err := some e }, st)

/-- The range of a Go `int` that is `bits` wide. -/
def inIntRange (bits : Nat) (c : Int) : Prop :=
  -(2 ^ (bits - 1) : Int) ≤ c ∧ c < 2 ^ (bits - 1)

/-! ## `strings.Replace` on a one-byte pattern -/

theorem first_split (d : UInt8) (s : GoString) (h : d ∈ s) :
    ∃ pre post, s = pre ++ d :: post ∧ d ∉ pre := by
  induction s with
  | nil => simp at h
  | cons c s ih =>
    by_cases hc : c = d
    · exact ⟨[], s, by simp [hc], by simp⟩
    · have hs : d ∈ s := by
        rcases List.mem_cons.mp h with h1 | h1
        · exact absurd h1.symm hc
        · exact h1
      obtain ⟨pre, post, e, hn⟩ := ih hs
      refine ⟨c :: pre, post, by simp [e], ?_⟩
      intro hm
      rcases List.mem_cons.mp hm with h1 | h1
      · exact hc h1.symm
      · exact hn h1

theorem stringsIndex_split (d : UInt8) (pre post : GoString) (h : d ∉ pre) :
    stringsIndex (pre ++ d :: post) [d] = pre.length := by
  induction pre with
  | nil => simp [stringsIndex, List.isPrefixOf]
  | cons c pre ih =>
    have hc : ¬ d = c := fun e => h (by simp [e])
    have hp : d ∉ pre := fun e => h (List.mem_cons_of_mem _ e)
    have := ih hp
    simp only [List.cons_append, stringsIndex, List.isPrefixOf, this]
    simp [hc]
    omega

theorem stringsIndex_absent (d : UInt8) (s : GoString) (h : d ∉ s) :
    stringsIndex s [d] = -1 := by
  induction s with
  | nil => simp [stringsIndex]
  | cons c s ih =>
    have hc : ¬ d = c := fun e => h (by simp [e])
    have hp : d ∉ s := fun e => h (List.mem_cons_of_mem _ e)
    simp [stringsIndex, List.isPrefixOf, ih hp, hc]

theorem stringsCountLoop_single (d : UInt8) :
    ∀ (fuel : Nat) (s : GoString) (n : Nat), s.length < fuel →
      stringsCountLoop fuel s [d] n = n + s.count d := by
  intro fuel
  induction fuel with
  | zero => intro s n h; omega
  | succ fuel ih =>
    intro s n h
    by_cases hm : d ∈ s
    · obtain ⟨pre, post, e, hn⟩ := first_split d s hm
      subst e
      have hlen : post.length < fuel := by
        simp at h; omega
      have hdrop : List.drop (pre.length + 1) (pre ++ d :: post) = post := by
        rw [List.drop_append_eq_append_drop]
        simp
      have hidx := stringsIndex_split d pre post hn
      simp only [stringsCountLoop, hidx]
      have hne : ¬ ((pre.length : Int) = -1) := by omega
      simp only [hne, if_false, Int.toNat_ofNat, List.length_singleton, hdrop]
      rw [ih post (n + 1) hlen]
      simp [List.count_append, List.count_eq_zero_of_not_mem hn]
      omega
    · simp [stringsCountLoop, stringsIndex_absent d s hm, List.count_eq_zero_of_not_mem hm]

theorem stringsCount_single (d : UInt8) (s : GoString) :
    stringsCount s [d] = s.count d := by
  simp [stringsCount, stringsCountLoop_single d (s.length + 1) s 0 (by omega)]

theorem map_swap_absent (d q : UInt8) (s : GoString) (h : d ∉ s) :
    s.map (fun x => if x = d then q else x) = s := by
  induction s with
  | nil => rfl
  | cons c s ih =>
    have hc : ¬ c = d := fun e => h (by simp [e])
    have hp : d ∉ s := fun e => h (List.mem_cons_of_mem _ e)
    simp [hc, ih hp]

theorem stringsReplaceLoop_single (d q : UInt8) (s : GoString) :
    ∀ (k start : Nat) (b : GoString), (s.drop start).count d = k →
      stringsReplaceLoop s [d] [q] k start b
        = b ++ (s.drop start).map (fun x => if x = d then q else x) := by
  intro k
  induction k with
  | zero =>
    intro start b h
    have hn : d ∉ s.drop start := List.count_eq_zero.mp h
    simp [stringsReplaceLoop, map_swap_absent d q _ hn]
  | succ k ih =>
    intro start b h
    have hm : d ∈ s.drop start := by
      apply List.count_pos_iff.mp
      omega
    obtain ⟨pre, post, e, hn⟩ := first_split d _ hm
    have hidx : stringsIndex (s.drop start) [d] = pre.length := by
      rw [e]; exact stringsIndex_split d pre post hn
    have hdrop : s.drop (start + pre.length + 1) = post := by
      have : s.drop (start + pre.length + 1) = (s.drop start).drop (pre.length + 1) := by
        rw [List.drop_drop, Nat.add_assoc]
      rw [this, e, List.drop_append_eq_append_drop]
      simp
    have hcnt : (s.drop (start + pre.length + 1)).count d = k := by
      rw [hdrop]
      rw [e] at h
      simp [List.count_append, List.count_eq_zero_of_not_mem hn] at h
      omega
    have htake : (s.drop start).take pre.length = pre := by
      rw [e]; simp
    simp only [stringsReplaceLoop, hidx, Int.toNat_ofNat, List.length_singleton,
      Nat.add_sub_cancel_left, htake]
    rw [ih (start + pre.length + 1) _ hcnt, hdrop, e]
    simp [map_swap_absent d q pre hn]

/-- What `strings.Replace(s, [d], [q], -1)` computes: every byte `d` becomes
`q`, every other byte stays. -/
theorem stringsReplace_single (d q : UInt8) (s : GoString) :
    stringsReplace s [d] [q] (-1) = s.map (fun x => if x = d then q else x) := by
  unfold stringsReplace
  by_cases hdq : d = q
  · subst hdq
    simp
    symm
    have : (fun x : UInt8 => if x = d then d else x) = id := by
      funext x; by_cases hx : x = d <;> simp [hx]
    simp [this]
  · simp only [List.cons.injEq, and_true, hdq, false_or]
    simp only [stringsCount_single]
    by_cases hz : s.count d = 0
    · have hn : d ∉ s := List.count_eq_zero.mp hz
      simp [hz, map_swap_absent d q s hn]
    · have h := stringsReplaceLoop_single d q s (s.count d) 0 [] (by simp)
      simp [hz] at h ⊢
      exact h

theorem formatSQL_eq_map (sql : GoString) : formatSQL sql = sql.map swapDollar := by
  unfold formatSQL swapDollar
  exact stringsReplace_single dollar question sql

theorem formatArgs_eq (args : List GoAny) : formatArgs args = GoAny.nil :: args := by
  simp [formatArgs, makeSlice, goCopy, List.replicate_succ]

theorem decimalAux_no_dollar :
    ∀ (fuel n : Nat) (acc : GoString), dollar ∉ acc → dollar ∉ decimalAux fuel n acc := by
  intro fuel
  induction fuel with
  | zero => intro n acc h; simpa [decimalAux] using h
  | succ fuel ih =>
    intro n acc h
    have hd : dollar ≠ UInt8.ofNat (48 + n % 10) := by
      have hlt : n % 10 < 10 := Nat.mod_lt _ (by decide)
      generalize n % 10 = r at hlt
      interval_cases r <;> decide
    have h1 : dollar ∉ UInt8.ofNat (48 + n % 10) :: acc := by
      intro hm
      rcases List.mem_cons.mp hm with e | e
      · exact hd e
      · exact h e
    simp only [decimalAux]
    split
    · exact h1
    · exact ih _ _ h1

theorem decimal_no_dollar (n : Nat) : dollar ∉ decimal n :=
  decimalAux_no_dollar (n + 1) n [] (by simp)

theorem placeholder_map (i : Nat) :
    (placeholder dollar i).map swapDollar = placeholder question i := by
  have h := map_swap_absent dollar question (decimal i) (decimal_no_dollar i)
  simp only [placeholder, List.map_cons]
  congr 1

theorem formatArgs_slot (args : List GoAny) (i : Nat) (h1 : 1 ≤ i) (h2 : i ≤ args.length) :
    (formatArgs args)[i]? = args[i - 1]? ∧ (args[i - 1]?).isSome = true := by
  obtain ⟨k, rfl⟩ : ∃ k, i = k + 1 := ⟨i - 1, by omega⟩
  have hk : k < args.length := by omega
  simp [formatArgs_eq, hk]

/-! ## The claims -/

/-- C1: for every argument list `args` of length n (the empty list included),
`formatArgs(args)` is `[nil] ++ args`: it has length n+1, slot 0 is nil, and
slot i is `args[i-1]` for every i in 1..n, values and order unaltered. -/
theorem formatArgs_prepends_nil (args : List GoAny) :
    formatArgs args = [GoAny.nil] ++ args ∧
    (formatArgs args).length = args.length + 1 ∧
    (formatArgs args)[0]? = some GoAny.nil ∧
    (∀ i : Nat, 1 ≤ i → i ≤ args.length →
      (formatArgs args)[i]? = args[i - 1]? ∧ (args[i - 1]?).isSome = true) ∧
    formatArgs [] = [GoAny.nil] := by
  refine ⟨by simp [formatArgs_eq], by simp [formatArgs_eq], by simp [formatArgs_eq], ?_,
    by simp [formatArgs_eq]⟩
  intro i h1 h2
  exact formatArgs_slot args i h1 h2

theorem formatArgs_prepends_nil_witness :
    (formatArgs [GoAny.int 5, GoAny.str (ascii "job")])[2]?
        = [GoAny.int 5, GoAny.str (ascii "job")][2 - 1]? ∧
      ([GoAny.int 5, GoAny.str (ascii "job")][2 - 1]?).isSome = true :=
  (formatArgs_prepends_nil [GoAny.int 5, GoAny.str (ascii "job")]).2.2.2.1 2
    (by decide) (by decide)

/-- C2: for every SQL text, argument list of length n and index i in 1..n, an
occurrence of the placeholder `$i` at offset p of `sql` is an occurrence of `?i`
at the same offset p of `formatSQL(sql)`, and the 0-indexed slot i of
`formatArgs(args)` holds the canonical argument i, `args[i-1]`. -/
theorem placeholder_keeps_position_and_value (sql : GoString) (args : List GoAny)
    (i p : Nat) (h1 : 1 ≤ i) (h2 : i ≤ args.length) :
    (occursAt (placeholder dollar i) sql p →
      occursAt (placeholder question i) (formatSQL sql) p) ∧
    (formatArgs args)[i]? = args[i - 1]? ∧ (args[i - 1]?).isSome = true := by
  refine ⟨?_, formatArgs_slot args i h1 h2⟩
  intro h
  unfold occursAt at h ⊢
  rw [formatSQL_eq_map, ← List.map_drop, ← placeholder_map]
  exact List.IsPrefix.map swapDollar h

theorem placeholder_keeps_position_and_value_witness :
    occursAt (placeholder dollar 2) (ascii "SELECT $1, $2") 11 ∧
    occursAt (placeholder question 2) (formatSQL (ascii "SELECT $1, $2")) 11 ∧
    (formatArgs [GoAny.int 5, GoAny.int 7])[2]? = some (GoAny.int 7) :=
  have h := placeholder_keeps_position_and_value (ascii "SELECT $1, $2")
    [GoAny.int 5, GoAny.int 7] 2 11 (by decide) (by decide)
  have ho : occursAt (placeholder dollar 2) (ascii "SELECT $1, $2") 11 := by
    unfold occursAt; decide
  ⟨ho, h.1 ho, h.2.1⟩

/-- C9: for every string `sql`, `formatSQL(sql)` has the length of `sql`, has
`?` wherever `sql` has `$`, has the byte of `sql` everywhere else, and contains
no `$`; it equals `sql` exactly when `sql` contains no `$`; a literal `$` in a
quoted string or a dollar-quoted body is rewritten as well. -/
theorem formatSQL_rewrites_every_dollar (sql : GoString) :
    (formatSQL sql).length = sql.length ∧
    (∀ p : Nat, sql[p]? = some dollar → (formatSQL sql)[p]? = some question) ∧
    (∀ (p : Nat) (b : UInt8), sql[p]? = some b → b ≠ dollar → (formatSQL sql)[p]? = some b) ∧
    dollar ∉ formatSQL sql ∧
    (formatSQL sql = sql ↔ dollar ∉ sql) ∧
    formatSQL (ascii "SELECT '$' || $1") = ascii "SELECT '?' || ?1" ∧
    formatSQL (ascii "SELECT $$a$$") = ascii "SELECT ??a??" := by
  refine ⟨?_, ?_, ?_, ?_, ?_, by decide, by decide⟩
  · simp [formatSQL_eq_map]
  · intro p h
    simp [formatSQL_eq_map, List.getElem?_map, h, swapDollar]
  · intro p b h hb
    simp [formatSQL_eq_map, List.getElem?_map, h, swapDollar, hb]
  · rw [formatSQL_eq_map]
    intro hm
    obtain ⟨b, _, hb⟩ := List.mem_map.mp hm
    unfold swapDollar at hb
    split at hb
    · exact absurd hb (by decide)
    · rename_i hne
      exact hne hb
  · rw [formatSQL_eq_map]
    constructor
    · intro h hm
      have hq : dollar ∈ sql.map swapDollar := by rw [h]; exact hm
      obtain ⟨b, _, hb⟩ := List.mem_map.mp hq
      unfold swapDollar at hb
      split at hb
      · exact absurd hb (by decide)
      · rename_i hne
        exact hne hb
    · intro h
      exact map_swap_absent dollar question sql h

theorem formatSQL_rewrites_every_dollar_witness :
    (ascii "a=$1")[2]? = some dollar ∧ (formatSQL (ascii "a=$1"))[2]? = some question :=
  ⟨by decide, (formatSQL_rewrites_every_dollar (ascii "a=$1")).2.1 2 (by decide)⟩

theorem isChain_txDone_not_noRows (e : GoError)
    (h : e.isChain GoError.pgErrTxDone = true) : e.isChain GoError.pgErrNoRows = false := by
  induction e with
  | wrap id inner ih =>
    simp only [GoError.isChain, Bool.or_eq_true, decide_eq_true_eq] at h
    rcases h with h | h
    · exact absurd h (by simp)
    · simp [GoError.isChain, ih h]
  | pgErrTxDone => simp [GoError.isChain]
  | pgErrNoRows => simp [GoError.isChain] at h
  | pgErrMultiRows => simp [GoError.isChain]
  | adapterErrNoRows => simp [GoError.isChain]
  | adapterErrTxClosed => simp [GoError.isChain]
  | other id => simp [GoError.isChain]

theorem errorsIs_txDone_not_noRows (err : Option GoError)
    (h : errorsIs err GoError.pgErrTxDone = true) :
    errorsIs err GoError.pgErrNoRows = false := by
  cases err with
  | none => rfl
  | some e => exact isChain_txDone_not_noRows e h

theorem errorsIs_txDone_ne_closed (err : Option GoError)
    (h : errorsIs err GoError.pgErrTxDone = true) :
    err ≠ some GoError.adapterErrTxClosed := by
  intro e
  rw [e] at h
  simp [errorsIs, GoError.isChain] at h

/-- C3 as stated fails: on a transaction begun on an acquired connection
(`connPool.Acquire`, then `conn.Begin`), go-pg does not report `pg.ErrTxDone`
after the commit, and `Commit` followed by `Rollback` returns nil, not
`adapter.ErrTxClosed`. -/
theorem commit_then_rollback_on_conn_tx_returns_nil :
    poolAcquire.1.2 = none ∧ connBegin.1.2 = none ∧ connBeginCommit.1 = none ∧
    (aTx.Rollback (goPg okServer) connBegin.1.1 bg connBeginCommit.2).1 = none ∧
    (aTx.Rollback (goPg okServer) connBegin.1.1 bg connBeginCommit.2).1
      ≠ some GoError.adapterErrTxClosed := by
  decide

/-- C3, amended: whenever the backend's rollback reports `pg.ErrTxDone`,
directly or wrapped, `aTx.Rollback` returns the canonical `adapter.ErrTxClosed`
and not the native error; `Commit` followed by `Rollback` on the same
transaction returns `adapter.ErrTxClosed` when the backend's rollback reports
`pg.ErrTxDone` after the commit, and the backend's own answer otherwise. -/
theorem rollback_translates_tx_done (σ : Type) (B : Backend σ) (tx : aTx)
    (ctx1 ctx2 : Ctx) (w : World σ) :
    (errorsIs (B (BackendCall.rollbackContext ctx2 tx.tx) w.st).1.err
        GoError.pgErrTxDone = true →
      (aTx.Rollback B tx ctx2 w).1 = some GoError.adapterErrTxClosed ∧
      (aTx.Rollback B tx ctx2 w).1 ≠ some GoError.pgErrTxDone) ∧
    (errorsIs (B (BackendCall.rollbackContext ctx2 tx.tx) (aTx.Commit B tx ctx1 w).2.st).1.err
        GoError.pgErrTxDone = true →
      (aTx.Rollback B tx ctx2 (aTx.Commit B tx ctx1 w).2).1
        = some GoError.adapterErrTxClosed) ∧
    (errorsIs (B (BackendCall.rollbackContext ctx2 tx.tx) (aTx.Commit B tx ctx1 w).2.st).1.err
        GoError.pgErrTxDone = false →
      (aTx.Rollback B tx ctx2 (aTx.Commit B tx ctx1 w).2).1
        = (B (BackendCall.rollbackContext ctx2 tx.tx) (aTx.Commit B tx ctx1 w).2.st).1.err) := by
  refine ⟨?_, ?_, ?_⟩
  · intro h
    simp [aTx.Rollback, invoke, h]
  · intro h
    simp [aTx.Rollback, invoke, h]
  · intro h
    simp [aTx.Rollback, invoke, h]

theorem rollback_translates_tx_done_witness :
    (aTx.Rollback (goPg okServer) poolBegin.1.1 bg poolBeginCommit.2).1
      = some GoError.adapterErrTxClosed :=
  (rollback_translates_tx_done PgState (goPg okServer) poolBegin.1.1 bg bg
    poolBegin.2).2.1 (by decide)

/-- C4 as stated fails: on a transaction begun on the pool, after a successful
`Commit`, a second `Commit`, an `Exec` and a `QueryRow(...).Scan` on the same
transaction all return the native `pg.ErrTxDone`, not `adapter.ErrTxClosed`. -/
theorem commit_then_use_returns_native_error :
    poolBegin.1.2 = none ∧ poolBeginCommit.1 = none ∧
    (aTx.Commit (goPg okServer) poolBegin.1.1 bg poolBeginCommit.2).1
      = some GoError.pgErrTxDone ∧
    (aTx.Exec (goPg okServer) poolBegin.1.1 bg (ascii "SELECT $1") [GoAny.int 5]
      poolBeginCommit.2).1.2 = some GoError.pgErrTxDone ∧
    (aRow.Scan (goPg okServer)
      (aTx.QueryRow poolBegin.1.1 bg (ascii "SELECT $1") [GoAny.int 5] poolBeginCommit.2).1
      [GoAny.ptr 1] poolBeginCommit.2).1 = some GoError.pgErrTxDone ∧
    some GoError.pgErrTxDone ≠ some GoError.adapterErrTxClosed := by
  decide

/-- C4, amended: whenever the backend answers a `Commit`, an `Exec` or a
`QueryRow(...).Scan` on a transaction with `pg.ErrTxDone`, directly or wrapped,
the adapter returns that backend error itself, untranslated, and not
`adapter.ErrTxClosed`. -/
theorem tx_done_is_forwarded_untranslated (σ : Type) (B : Backend σ) (tx : aTx)
    (ctx : Ctx) (sql : GoString) (args dest : List GoAny) (w : World σ) :
    (errorsIs (B (BackendCall.commitContext ctx tx.tx) w.st).1.err
        GoError.pgErrTxDone = true →
      (aTx.Commit B tx ctx w).1 = (B (BackendCall.commitContext ctx tx.tx) w.st).1.err ∧
      (aTx.Commit B tx ctx w).1 ≠ some GoError.adapterErrTxClosed) ∧
    (errorsIs (B (BackendCall.execContext ctx (Executor.tx tx.tx) (formatSQL sql)
        (formatArgs args)) w.st).1.err GoError.pgErrTxDone = true →
      (aTx.Exec B tx ctx sql args w).1.2
        = (B (BackendCall.execContext ctx (Executor.tx tx.tx) (formatSQL sql)
            (formatArgs args)) w.st).1.err ∧
      (aTx.Exec B tx ctx sql args w).1.2 ≠ some GoError.adapterErrTxClosed) ∧
    (errorsIs (B (BackendCall.queryOneContext ctx (Executor.tx tx.tx) dest (formatSQL sql)
        (formatArgs args)) w.st).1.err GoError.pgErrTxDone = true →
      (aRow.Scan B (aTx.QueryRow tx ctx sql args w).1 dest w).1
        = (B (BackendCall.queryOneContext ctx (Executor.tx tx.tx) dest (formatSQL sql)
            (formatArgs args)) w.st).1.err ∧
      (aRow.Scan B (aTx.QueryRow tx ctx sql args w).1 dest w).1
        ≠ some GoError.adapterErrTxClosed) := by
  refine ⟨?_, ?_, ?_⟩
  · intro h
    exact ⟨rfl, errorsIs_txDone_ne_closed _ h⟩
  · intro h
    exact ⟨rfl, errorsIs_txDone_ne_closed _ h⟩
  · intro h
    have hn := errorsIs_txDone_not_noRows _ h
    have he : (aRow.Scan B (aTx.QueryRow tx ctx sql args w).1 dest w).1
        = (B (BackendCall.queryOneContext ctx (Executor.tx tx.tx) dest (formatSQL sql)
            (formatArgs args)) w.st).1.err := by
      simp [aRow.Scan, aTx.QueryRow, invoke, hn]
    rw [he]
    exact ⟨rfl, errorsIs_txDone_ne_closed _ h⟩

theorem tx_done_is_forwarded_untranslated_witness :
    (aTx.Commit (failingBackend (GoError.wrap 2 GoError.pgErrTxDone)) (NewTx (some 1)) bg
        { st := (), log := [] }).1 = some (GoError.wrap 2 GoError.pgErrTxDone) ∧
    (aTx.Commit (failingBackend (GoError.wrap 2 GoError.pgErrTxDone)) (NewTx (some 1)) bg
        { st := (), log := [] }).1 ≠ some GoError.adapterErrTxClosed :=
  (tx_done_is_forwarded_untranslated Unit (failingBackend (GoError.wrap 2 GoError.pgErrTxDone))
    (NewTx (some 1)) bg (ascii "SELECT $1") [GoAny.int 5] [GoAny.ptr 1]
    { st := (), log := [] }).1 (by decide)

theorem forwards_same (err : Option GoError) : Forwards err err :=
  ⟨fun _ h _ _ => h, fun h => h⟩

/-- C5 as stated fails: when the backend's query-one call returns the value
`adapter.ErrNoRows` itself, which neither is nor wraps `pg.ErrNoRows`, `Scan`
forwards it, so it returns the canonical `adapter.ErrNoRows` although the backend
error is not the native no-rows error. -/
theorem scan_returns_canonical_without_native_no_rows :
    errorsIs (failingBackend GoError.adapterErrNoRows
      (BackendCall.queryOneContext bg (Executor.db (some 1)) [GoAny.ptr 1]
        (formatSQL (ascii "SELECT $1")) (formatArgs [GoAny.int 999])) ()).1.err
      GoError.pgErrNoRows = false ∧
    (aRow.Scan (failingBackend GoError.adapterErrNoRows)
      { ctx := bg, db := Executor.db (some 1), sql := ascii "SELECT $1",
        args := [GoAny.int 999] } [GoAny.ptr 1] { st := (), log := [] }).1
      = some GoError.adapterErrNoRows := by
  decide

/-- C5, amended: `aRow.Scan` returns the canonical `adapter.ErrNoRows` when the
backend error is or wraps `pg.ErrNoRows`, nil when the backend reports no error,
and the backend's error itself in every other case; so it returns
`adapter.ErrNoRows` exactly when the backend error is or wraps `pg.ErrNoRows` or
is already the value `adapter.ErrNoRows`. It never returns the native no-rows
error. -/
theorem scan_normalises_no_rows (σ : Type) (B : Backend σ) (r : aRow)
    (dest : List GoAny) (w : World σ) (err : Option GoError)
    (hB : (B (BackendCall.queryOneContext r.ctx r.db dest (formatSQL r.sql)
      (formatArgs r.args)) w.st).1.err = err) :
    (errorsIs err GoError.pgErrNoRows = true →
      (aRow.Scan B r dest w).1 = some GoError.adapterErrNoRows) ∧
    (err = none → (aRow.Scan B r dest w).1 = none) ∧
    (errorsIs err GoError.pgErrNoRows = false → (aRow.Scan B r dest w).1 = err) ∧
    ((aRow.Scan B r dest w).1 = some GoError.adapterErrNoRows ↔
      (errorsIs err GoError.pgErrNoRows = true ∨ err = some GoError.adapterErrNoRows)) ∧
    (aRow.Scan B r dest w).1 ≠ some GoError.pgErrNoRows ∧
    errorsIs (aRow.Scan B r dest w).1 GoError.pgErrNoRows = false := by
  have hT : errorsIs err GoError.pgErrNoRows = true →
      (aRow.Scan B r dest w).1 = some GoError.adapterErrNoRows := by
    intro h
    simp [aRow.Scan, invoke, hB, h]
  have hF : errorsIs err GoError.pgErrNoRows = false → (aRow.Scan B r dest w).1 = err := by
    intro h
    simp [aRow.Scan, invoke, hB, h]
  refine ⟨hT, ?_, hF, ?_, ?_, ?_⟩
  · intro h
    subst h
    exact hF rfl
  · constructor
    · intro h
      cases hc : errorsIs err GoError.pgErrNoRows with
      | true => exact Or.inl rfl
      | false =>
        rw [hF hc] at h
        exact Or.inr h
    · intro h
      rcases h with h | h
      · exact hT h
      · subst h
        exact hF (by decide)
  · cases hc : errorsIs err GoError.pgErrNoRows with
    | true => rw [hT hc]; decide
    | false =>
      rw [hF hc]
      intro e
      rw [e] at hc
      simp [errorsIs, GoError.isChain] at hc
  · cases hc : errorsIs err GoError.pgErrNoRows with
    | true => rw [hT hc]; decide
    | false => rw [hF hc]; exact hc

theorem scan_normalises_no_rows_witness :
    (aRow.Scan (failingBackend (GoError.wrap 3 GoError.pgErrNoRows))
      { ctx := { id := 0 }, db := Executor.db (some 1), sql := ascii "SELECT $1",
        args := [GoAny.int 999] } [GoAny.ptr 1] { st := (), log := [] }).1
      = some GoError.adapterErrNoRows :=
  (scan_normalises_no_rows Unit (failingBackend (GoError.wrap 3 GoError.pgErrNoRows))
    { ctx := { id := 0 }, db := Executor.db (some 1), sql := ascii "SELECT $1",
      args := [GoAny.int 999] } [GoAny.ptr 1] { st := (), log := [] }
    (some (GoError.wrap 3 GoError.pgErrNoRows)) rfl).1 (by decide)

/-- C6: `QueryRow` on a transaction, a connection or the pool makes no backend
call and only captures (context, executor, sql, args); one `Scan` on the row
makes exactly one backend call, the query-one call with the captured context,
`formatSQL(sql)` as the statement and `formatArgs(args)` as the parameters. -/
theorem queryRow_is_lazy_scan_calls_once (σ : Type) (B : Backend σ) (w : World σ)
    (ctx : Ctx) (sql : GoString) (args dest : List GoAny)
    (tx : aTx) (c : conn) (pool : connPool) :
    aTx.QueryRow tx ctx sql args w
      = ({ ctx := ctx, db := Executor.tx tx.tx, sql := sql, args := args }, w) ∧
    conn.QueryRow c ctx sql args w
      = ({ ctx := ctx, db := Executor.conn c.c, sql := sql, args := args }, w) ∧
    connPool.QueryRow pool ctx sql args w
      = ({ ctx := ctx, db := Executor.db pool.db, sql := sql, args := args }, w) ∧
    (∀ ex : Executor,
      (aRow.Scan B { ctx := ctx, db := ex, sql := sql, args := args } dest w).2.log
        = w.log ++ [BackendCall.queryOneContext ctx ex dest (formatSQL sql)
            (formatArgs args)] ∧
      (aRow.Scan B { ctx := ctx, db := ex, sql := sql, args := args } dest w).2.st
        = (B (BackendCall.queryOneContext ctx ex dest (formatSQL sql)
            (formatArgs args)) w.st).2) := by
  refine ⟨rfl, rfl, rfl, ?_⟩
  intro ex
  constructor <;> (simp only [aRow.Scan, invoke]; split <;> rfl)

/-- C7: on a command result wrapping a backend result whose affected-row count
is `c`, a Go `int` (32 or 64 bits wide), `RowsAffected()` returns exactly `c`:
0, 1, N, with no truncation and no sign change. -/
theorem rowsAffected_exact (bits : Nat) (c n : Int) (hb : bits = 32 ∨ bits = 64)
    (hc : inIntRange bits c) :
    aCommandTag.RowsAffected { r := some { rowsAffected := c, rowsReturned := n } }
      = Except.ok c := by
  have h63 : -(2 ^ 63 : Int) ≤ c ∧ c < 2 ^ 63 := by
    unfold inIntRange at hc
    rcases hb with rfl | rfl
    · norm_num at hc ⊢
      omega
    · norm_num at hc ⊢
      omega
  have : toInt64 c = c := by
    unfold toInt64
    norm_num at h63 ⊢
    omega
  simp [aCommandTag.RowsAffected, this]

theorem rowsAffected_exact_witness :
    aCommandTag.RowsAffected { r := some { rowsAffected := 2147483647, rowsReturned := 0 } }
      = Except.ok 2147483647 :=
  rowsAffected_exact 32 2147483647 0 (Or.inl rfl) (by unfold inIntRange; decide)

theorem forwards_unless {target canon : GoError} (err : Option GoError)
    (h : target = GoError.pgErrNoRows ∨ target = GoError.pgErrTxDone) :
    Forwards err (if errorsIs err target = true then some canon else err) := by
  constructor
  · intro e he h1 h2
    subst he
    have hf : errorsIs (some e) target = false := by
      rcases h with rfl | rfl
      · exact h1
      · exact h2
    simp [hf]
  · intro hn
    split at hn
    · exact absurd hn (by simp)
    · exact hn

theorem scan_fst {σ : Type} (B : Backend σ) (r : aRow) (dest : List GoAny) (w : World σ) :
    (aRow.Scan B r dest w).1 =
      if errorsIs (B (BackendCall.queryOneContext r.ctx r.db dest (formatSQL r.sql)
          (formatArgs r.args)) w.st).1.err GoError.pgErrNoRows = true
      then some GoError.adapterErrNoRows
      else (B (BackendCall.queryOneContext r.ctx r.db dest (formatSQL r.sql)
          (formatArgs r.args)) w.st).1.err := by
  simp only [aRow.Scan, invoke]
  split <;> rfl

theorem rollback_fst {σ : Type} (B : Backend σ) (tx : aTx) (ctx : Ctx) (w : World σ) :
    (aTx.Rollback B tx ctx w).1 =
      if errorsIs (B (BackendCall.rollbackContext ctx tx.tx) w.st).1.err
          GoError.pgErrTxDone = true
      then some GoError.adapterErrTxClosed
      else (B (BackendCall.rollbackContext ctx tx.tx) w.st).1.err := by
  simp only [aTx.Rollback, invoke]
  split <;> rfl

/-- C8: for every backend error `e` that is neither the native no-rows error
nor the native transaction-done error, each of `Exec` (transaction, connection,
pool), `Scan`, `Commit`, `Rollback`, `Begin`, `Ping`, `Release` and `Close`
returns exactly `e` when its backend call returns `e`, and returns a nil error
only when the backend call returns nil. -/
theorem adapter_forwards_backend_errors (σ : Type) (B : Backend σ) (w : World σ)
    (ctx : Ctx) (sql : GoString) (args dest : List GoAny)
    (tx : aTx) (c : conn) (pool : connPool) (r : aRow) :
    Forwards (B (BackendCall.execContext ctx (Executor.tx tx.tx) (formatSQL sql)
        (formatArgs args)) w.st).1.err (aTx.Exec B tx ctx sql args w).1.2 ∧
    Forwards (B (BackendCall.execContext ctx (Executor.conn c.c) (formatSQL sql)
        (formatArgs args)) w.st).1.err (conn.Exec B c ctx sql args w).1.2 ∧
    Forwards (B (BackendCall.execContext ctx (Executor.db pool.db) (formatSQL sql)
        (formatArgs args)) w.st).1.err (connPool.Exec B pool ctx sql args w).1.2 ∧
    Forwards (B (BackendCall.queryOneContext r.ctx r.db dest (formatSQL r.sql)
        (formatArgs r.args)) w.st).1.err (aRow.Scan B r dest w).1 ∧
    Forwards (B (BackendCall.commitContext ctx tx.tx) w.st).1.err
      (aTx.Commit B tx ctx w).1 ∧
    Forwards (B (BackendCall.rollbackContext ctx tx.tx) w.st).1.err
      (aTx.Rollback B tx ctx w).1 ∧
    Forwards (B (BackendCall.beginContext ctx (Executor.conn c.c)) w.st).1.err
      (conn.Begin B c ctx w).1.2 ∧
    Forwards (B (BackendCall.beginContext ctx (Executor.db pool.db)) w.st).1.err
      (connPool.Begin B pool ctx w).1.2 ∧
    Forwards (B (BackendCall.ping ctx (Executor.conn c.c)) w.st).1.err
      (conn.Ping B c ctx w).1 ∧
    Forwards (B (BackendCall.ping ctx (Executor.db pool.db)) w.st).1.err
      (connPool.Ping B pool ctx w).1 ∧
    Forwards (B (BackendCall.close (Executor.conn c.c)) w.st).1.err
      (conn.Release B c w).1 ∧
    Forwards (B (BackendCall.close (Executor.db pool.db)) w.st).1.err
      (connPool.Close B pool w).1 := by
  refine ⟨forwards_same _, forwards_same _, forwards_same _, ?_, forwards_same _, ?_,
    forwards_same _, forwards_same _, forwards_same _, forwards_same _, forwards_same _,
    forwards_same _⟩
  · rw [scan_fst]
    exact forwards_unless _ (Or.inl rfl)
  · rw [rollback_fst]
    exact forwards_unless _ (Or.inr rfl)

theorem adapter_forwards_backend_errors_witness :
    (aRow.Scan (failingBackend (GoError.other 7))
      { ctx := { id := 0 }, db := Executor.db (some 1), sql := ascii "SELECT $1",
        args := [GoAny.int 5] } [GoAny.ptr 1] { st := (), log := [] }).1
      = some (GoError.other 7) :=
  (adapter_forwards_backend_errors Unit (failingBackend (GoError.other 7))
    { st := (), log := [] } { id := 0 } (ascii "SELECT $1") [GoAny.int 5] [GoAny.ptr 1]
    (NewTx (some 1)) (NewConn (some 1)) (NewConnPool (some 1))
    { ctx := { id := 0 }, db := Executor.db (some 1), sql := ascii "SELECT $1",
      args := [GoAny.int 5] }).2.2.2.1.1 (GoError.other 7) rfl (by decide) (by decide)

/-- C10 as stated fails: when the backend's exec call fails and hands back no
result object, `Exec` (transaction, connection, pool) returns that error together
with a command result on which `RowsAffected()` panics. -/
theorem rowsAffected_panics_on_missing_result :
    (aTx.Exec (failingBackend (GoError.other 7)) (NewTx (some 1)) { id := 0 }
      (ascii "UPDATE t SET a = $1") [GoAny.int 5] { st := (), log := [] }).1.2
        = some (GoError.other 7) ∧
    (aTx.Exec (failingBackend (GoError.other 7)) (NewTx (some 1)) { id := 0 }
      (ascii "UPDATE t SET a = $1") [GoAny.int 5] { st := (), log := [] }).1.1.RowsAffected
        = Except.error Panic.nilDereference ∧
    (conn.Exec (failingBackend (GoError.other 7)) (NewConn (some 1)) { id := 0 }
      (ascii "UPDATE t SET a = $1") [GoAny.int 5] { st := (), log := [] }).1.1.RowsAffected
        = Except.error Panic.nilDereference ∧
    (connPool.Exec (failingBackend (GoError.other 7)) (NewConnPool (some 1)) { id := 0 }
      (ascii "UPDATE t SET a = $1") [GoAny.int 5] { st := (), log := [] }).1.1.RowsAffected
        = Except.error Panic.nilDereference :=
  ⟨rfl, rfl, rfl, rfl⟩

/-- C10, amended: on every command result returned by `Exec` on a transaction,
a connection or the pool for which the backend handed back a result object,
`RowsAffected()` returns an integer (the count converted to int64) and does not
panic. -/
theorem rowsAffected_total_on_present_result (σ : Type) (B : Backend σ) (w : World σ)
    (ctx : Ctx) (sql : GoString) (args : List GoAny)
    (tx : aTx) (c : conn) (pool : connPool) :
    (∀ res : OrmResult,
      (B (BackendCall.execContext ctx (Executor.tx tx.tx) (formatSQL sql)
        (formatArgs args)) w.st).1.res = some res →
      (aTx.Exec B tx ctx sql args w).1.1.RowsAffected
        = Except.ok (toInt64 res.rowsAffected)) ∧
    (∀ res : OrmResult,
      (B (BackendCall.execContext ctx (Executor.conn c.c) (formatSQL sql)
        (formatArgs args)) w.st).1.res = some res →
      (conn.Exec B c ctx sql args w).1.1.RowsAffected
        = Except.ok (toInt64 res.rowsAffected)) ∧
    (∀ res : OrmResult,
      (B (BackendCall.execContext ctx (Executor.db pool.db) (formatSQL sql)
        (formatArgs args)) w.st).1.res = some res →
      (connPool.Exec B pool ctx sql args w).1.1.RowsAffected
        = Except.ok (toInt64 res.rowsAffected)) ∧
    (∀ ct : aCommandTag, ct.r ≠ none → ∃ n : Int, ct.RowsAffected = Except.ok n) := by
  refine ⟨?_, ?_, ?_, ?_⟩
  · intro res h
    simp [aTx.Exec, invoke, aCommandTag.RowsAffected, h]
  · intro res h
    simp [conn.Exec, invoke, aCommandTag.RowsAffected, h]
  · intro res h
    simp [connPool.Exec, invoke, aCommandTag.RowsAffected, h]
  · intro ct h
    cases hr : ct.r with
    | none => exact absurd hr h
    | some res => exact ⟨toInt64 res.rowsAffected, by simp [aCommandTag.RowsAffected, hr]⟩

theorem rowsAffected_total_on_present_result_witness :
    (aTx.Exec (goPg okServer) (NewTx (some 1)) { id := 0 }
      (ascii "INSERT INTO t(a) VALUES ($1)") [GoAny.int 5] freshWorld).1.1.RowsAffected
        = Except.ok (toInt64 1) :=
  (rowsAffected_total_on_present_result PgState (goPg okServer) freshWorld { id := 0 }
    (ascii "INSERT INTO t(a) VALUES ($1)") [GoAny.int 5]
    (NewTx (some 1)) (NewConn (some 1)) (NewConnPool (some 1))).1
    { rowsAffected := 1, rowsReturned := 0 } rfl

end Gopgv10
